import Mathlib

/-
Shallow embedding of chemprop/data/data.py (datapoint/dataset layer of the
chemprop data pipeline) and proofs about it.

Modelling conventions:
* Python floats are embedded as rationals; the float() parser and the external
  feature generators (morgan_fingerprint, rdkit_2d_features) and the vocabulary
  collaborator are abstract function parameters, as the spec treats them as
  external collaborators.
* Fallible Python code (raise) is embedded with Except String.
* numpy boolean masks are embedded as lists over Nat with entries 0 and 1
  (False = 0, True = 1), matching the final list(self.mask) conversion and the
  sum(mask) == len(mask) comparisons.
* Random draws (np.random.random comparisons, np.random.rand comparisons,
  randint draws and the arbitrary choice made by set.pop) are embedded as
  explicit oracle parameters; bounded integer draws randint(0, k-1) are
  embedded as an arbitrary natural taken mod k, which is exactly the
  guarantee randint gives when k >= 1 (all call sites below are guarded so
  that k >= 1 whenever the draw happens in the source).
* The process-shared `random` module state is embedded as an explicit
  RandomSource value threaded through shuffle; seeding replaces the state by a
  value computed from the seed alone.
* List indexing that numpy/python would reject with an exception is embedded
  with getD / List.set; the theorems about the masking code therefore carry
  well-formedness hypotheses keeping every index in range, which is where the
  embedding and the source agree.
-/

set_option maxHeartbeats 1000000

/-! ## SparseNoneArray (data.py lines 18-29) -/

/-- The dict comprehension in SparseNoneArray.__init__:
`{i: x for i, x in enumerate(targets) if x is not None}`,
keys embedded as integers since Python dict keys here are ints. -/
def sparseEntries (k : ℤ) : List (Option ℚ) → List (ℤ × ℚ)
  | [] => []
  | none :: rest => sparseEntries (k + 1) rest
  | some x :: rest => (k, x) :: sparseEntries (k + 1) rest

/-- Dict lookup with the defaultdict(lambda: None) default: a missing key
yields none. -/
def dictGet (i : ℤ) : List (ℤ × ℚ) → Option ℚ
  | [] => none
  | (k, x) :: rest => if i = k then some x else dictGet i rest

/-- SparseNoneArray: fixed declared length plus the sparse key/value entries. -/
structure SparseNoneArray where
  length : ℕ
  targets : List (ℤ × ℚ)
  deriving DecidableEq

/-- SparseNoneArray.__init__ -/
def SparseNoneArray.ofTargets (targets : List (Option ℚ)) : SparseNoneArray :=
  SparseNoneArray.mk targets.length (sparseEntries 0 targets)

/-- SparseNoneArray.__getitem__: `if i >= self.length: raise IndexError;
return self.targets[i]` (the defaultdict returns None on a missing key). -/
def SparseNoneArray.getitem (s : SparseNoneArray) (i : ℤ) : Except String (Option ℚ) :=
  if (s.length : ℤ) ≤ i then Except.error "IndexError"
  else Except.ok (dictGet i s.targets)

/-! ## Random oracles for MoleculeDatapoint.recreate_mask (data.py lines 106-159) -/

/-- All random draws made by recreate_mask, supplied as oracles:
`pick` is the arbitrary element chosen by `atoms.pop()`, `coin step` is the
outcome of `np.random.random() < bert_mask_prob / len(cluster)` at a given
loop step, `bern i` is the outcome of `np.random.rand(num_targets)[i] >
bert_mask_prob`, `randAtom` feeds `np.random.randint(len(mask))`, and
`idxChange` / `nbrChoice` feed the two `random.randint` draws of the
correlation loop. -/
structure RandOracle where
  pick : Finset ℕ → ℕ
  coin : ℕ → Bool
  bern : ℕ → Bool
  randAtom : ℕ
  idxChange : ℕ → ℕ
  nbrChoice : ℕ → ℕ

/-- numpy fancy assignment `mask[cluster] = 0`. -/
def setZeros (mask : List ℕ) (idxs : List ℕ) : List ℕ :=
  idxs.foldl (fun m i => m.set i 0) mask

/-- The element removed by `atoms.pop()`: whatever the oracle picks if it is a
member; any member otherwise (Python's pop always returns a member). -/
def clusterPop (pick : Finset ℕ → ℕ) (s : Finset ℕ) : ℕ :=
  if pick s ∈ s then pick s
  else if h : s.Nonempty then s.min' h else 0

/-- One iteration of the cluster-policy while loop (data.py lines 117-125):
pop an atom, form its cluster, and either zero the cluster and drop the
neighbors from the remaining set, or keep the mask and set as they are. -/
def clusterStep (pick : Finset ℕ → ℕ) (c : Bool) (nb : ℕ → List ℕ)
    (mask : List ℕ) (atoms : Finset ℕ) : List ℕ × Finset ℕ :=
  let atom := clusterPop pick atoms
  let neighbors := nb atom
  if c then (setZeros mask (atom :: neighbors), (atoms.erase atom) \ neighbors.toFinset)
  else (mask, atoms.erase atom)

lemma clusterPop_mem (pick : Finset ℕ → ℕ) (s : Finset ℕ) (h : s.Nonempty) :
    clusterPop pick s ∈ s := by
  unfold clusterPop
  by_cases hp : pick s ∈ s
  · rw [if_pos hp]; exact hp
  · rw [if_neg hp, dif_pos h]
    exact s.min'_mem h

lemma clusterStep_card_lt (pick : Finset ℕ → ℕ) (c : Bool) (nb : ℕ → List ℕ)
    (mask : List ℕ) (atoms : Finset ℕ) (h : atoms.Nonempty) :
    (clusterStep pick c nb mask atoms).2.card < atoms.card := by
  have hmem := clusterPop_mem pick atoms h
  have herase : (atoms.erase (clusterPop pick atoms)).card < atoms.card :=
    Finset.card_erase_lt_of_mem hmem
  unfold clusterStep
  cases c with
  | true =>
    calc ((atoms.erase (clusterPop pick atoms)) \ (nb (clusterPop pick atoms)).toFinset).card
        ≤ (atoms.erase (clusterPop pick atoms)).card := Finset.card_le_card Finset.sdiff_subset
      _ < atoms.card := herase
  | false => simpa using herase

/-- The cluster-policy while loop (data.py lines 117-125), indexed by the
iteration counter `step` feeding the coin oracle. -/
def clusterLoop (pick : Finset ℕ → ℕ) (coin : ℕ → Bool) (nb : ℕ → List ℕ)
    (mask : List ℕ) (atoms : Finset ℕ) (step : ℕ) : List ℕ :=
  if h : atoms.Nonempty then
    let p := clusterStep pick (coin step) nb mask atoms
    clusterLoop pick coin nb p.1 p.2 (step + 1)
  else mask
termination_by atoms.card
decreasing_by exact clusterStep_card_lt pick (coin step) nb mask atoms h

/-- The correlation-policy fix-up loop (data.py lines 138-142). Note the
faithful embedding of the source line
`self.mask[index_to_change] = self.mask[nbr_index]`:
the value copied is read at position `nbr_index` (the position drawn inside
the neighbor list), not at the neighbor atom index. -/
def corrLoop (o : RandOracle) (nb : ℕ → List ℕ) : List ℕ → ℕ → ℕ → List ℕ
  | mask, 0, _ => mask
  | mask, iters + 1, step =>
    let index_to_change := o.idxChange step % mask.length
    if 0 < (nb index_to_change).length then
      let nbr_index := o.nbrChoice step % (nb index_to_change).length
      corrLoop o nb (mask.set index_to_change (mask.getD nbr_index 0)) iters (step + 1)
    else
      corrLoop o nb mask iters (step + 1)

/-- Comparison definition following the spec sentence for the correlation
pass: "repeatedly pick a random atom with at least one neighbor and copy a
random neighbor's mask value onto it". Here the copied value is the mask
entry of the chosen neighbor atom `nb index_to_change [nbr_index]`. -/
def corrLoopFromSpec (o : RandOracle) (nb : ℕ → List ℕ) : List ℕ → ℕ → ℕ → List ℕ
  | mask, 0, _ => mask
  | mask, iters + 1, step =>
    let index_to_change := o.idxChange step % mask.length
    if 0 < (nb index_to_change).length then
      let nbr_index := o.nbrChoice step % (nb index_to_change).length
      corrLoopFromSpec o nb
        (mask.set index_to_change (mask.getD ((nb index_to_change).getD nbr_index 0) 0))
        iters (step + 1)
    else
      corrLoopFromSpec o nb mask iters (step + 1)

/-- MoleculeDatapoint.recreate_mask (data.py lines 106-159) on the relevant
datapoint state: the bert_pretraining flag, the policy string, the
neighbor-adjacency and the number of vocab targets. Returns the final mask
(already a plain list, matching `list(self.mask)`). -/
def recreateMaskCore (o : RandOracle) (bert_pretraining : Bool) (bert_mask_type : String)
    (nb : ℕ → List ℕ) (num_targets : ℕ) : Except String (List ℕ) :=
  if !bert_pretraining then
    Except.error "Cannot recreate mask without bert_pretraining on."
  else if bert_mask_type = "cluster" then
    let mask := clusterLoop o.pick o.coin nb (List.replicate num_targets 1) (Finset.range num_targets) 0
    if mask.sum = mask.length then
      let atom := o.randAtom % mask.length
      Except.ok (setZeros mask (atom :: nb atom))
    else Except.ok mask
  else if bert_mask_type = "correlation" then
    let mask0 := (List.range num_targets).map (fun i => if o.bern i then 1 else 0)
    let mask := corrLoop o nb mask0 mask0.length 0
    if mask.sum = mask.length then
      Except.ok (mask.set (o.randAtom % mask.length) 0)
    else Except.ok mask
  else if bert_mask_type = "random" then
    let mask := (List.range num_targets).map (fun i => if o.bern i then 1 else 0)
    if mask.sum = mask.length then
      Except.ok (mask.set (o.randAtom % mask.length) 0)
    else Except.ok mask
  else
    Except.error ("bert_mask_type \"" ++ bert_mask_type ++ "\" not supported.")

/-! ## MoleculeDatapoint (data.py lines 32-169) -/

/-- The targets attribute: a dense list of optional floats, or its
SparseNoneArray wrapping when args.sparse is set. The predict_features alias
`self.targets = self.features` is embedded as the dense list of the feature
values (all set). -/
inductive Targets where
  | dense : List (Option ℚ) → Targets
  | sparse : SparseNoneArray → Targets
  deriving DecidableEq

def Targets.tlen : Targets → ℕ
  | Targets.dense l => l.length
  | Targets.sparse s => s.length

/-- The configuration fields of args read by MoleculeDatapoint.__init__.
bert_mask_prob is not stored: every comparison against it is absorbed into
the Boolean oracles of RandOracle. -/
structure InitArgs where
  features_generator : Option (List String)
  predict_features : Bool
  sparse : Bool
  dataset_type : String
  bert_mask_type : String
  deriving DecidableEq

/-- The unpacking at the top of MoleculeDatapoint.__init__ (lines 46-53),
plus the mode test of line 85: ss_mode is
`args is not None and args.dataset_type in ['unsupervised', 'bert_pretraining']`. -/
structure ArgsView where
  features_generator : Option (List String)
  predict_features : Bool
  sparse : Bool
  bert_pretraining : Bool
  ss_mode : Bool
  bert_mask_type : String

def argsView : Option InitArgs → ArgsView
  | some a =>
    ArgsView.mk a.features_generator a.predict_features a.sparse
      (a.dataset_type == "bert_pretraining")
      (a.dataset_type == "unsupervised" || a.dataset_type == "bert_pretraining")
      a.bert_mask_type
  | none => ArgsView.mk none false false false false ""

/-- MoleculeDatapoint state. vocab_targets, nb_indices and mask do not exist
in Python before bert_init runs; they are embedded with empty defaults. -/
structure MoleculeDatapoint where
  compound_name : Option String
  smiles : String
  features : Option (List ℚ)
  bert_pretraining : Bool
  bert_mask_type : String
  targets : Targets
  num_tasks : ℕ
  vocab_targets : List ℕ
  nb_indices : List (List ℕ)
  mask : List ℕ
  deriving DecidableEq

/-- The feature-generator registry dispatch inside __init__ (lines 75-82). -/
def resolveGenerator (morgan : String → Bool → List ℚ) (rdkit2d : String → List ℚ)
    (smiles fg : String) : Except String (List ℚ) :=
  if fg = "morgan" then Except.ok (morgan smiles false)
  else if fg = "morgan_count" then Except.ok (morgan smiles true)
  else if fg = "rdkit_2d" then Except.ok (rdkit2d smiles)
  else Except.error ("features_generator type \"" ++ fg ++ "\" not supported.")

/-- The `for fg in features_generator: self.features.extend(...)` loop. -/
def genLoop (morgan : String → Bool → List ℚ) (rdkit2d : String → List ℚ)
    (smiles : String) : List String → List ℚ → Except String (List ℚ)
  | [], acc => Except.ok acc
  | fg :: rest, acc =>
    match resolveGenerator morgan rdkit2d smiles fg with
    | Except.error e => Except.error e
    | Except.ok v => genLoop morgan rdkit2d smiles rest (acc ++ v)

/-- Lines 72-83: when a generator list is configured, the features become the
concatenation of the generated vectors; otherwise the passed features stand. -/
def genFeatures (morgan : String → Bool → List ℚ) (rdkit2d : String → List ℚ)
    (smiles : String) (fgs : Option (List String)) (features0 : Option (List ℚ)) :
    Except String (Option (List ℚ)) :=
  match fgs with
  | none => Except.ok features0
  | some l =>
    match genLoop morgan rdkit2d smiles l [] with
    | Except.error e => Except.error e
    | Except.ok fs => Except.ok (some fs)

/-- Lines 58-62: strip the compound name off the record when enabled
(line[0] on an empty record raises). -/
def splitCompoundName (use_compound_names : Bool) (line : List String) :
    Except String (Option String × List String) :=
  if use_compound_names then
    match line with
    | [] => Except.error "IndexError: list index out of range"
    | c :: rest => Except.ok (some c, rest)
  else Except.ok (none, line)

/-- Lines 89-97: the targets list of the supervised branch: the features
alias when predict_features is set (len(None) raises when there are no
features), the parsed optional floats of the trailing fields otherwise. -/
def supervisedTargets (toFloat : String → ℚ) (predict_features : Bool)
    (features1 : Option (List ℚ)) (rest : List String) :
    Except String (List (Option ℚ)) :=
  if predict_features then
    match features1 with
    | none => Except.error "TypeError: object of type NoneType has no len()"
    | some fs => Except.ok (fs.map some)
  else
    Except.ok (rest.map (fun x => if x = "" then none else some (toFloat x)))

/-- MoleculeDatapoint.__init__ (data.py lines 33-97). morgan, rdkit2d embed
the external feature generators and toFloat embeds float() on nonempty
fields. -/
def MoleculeDatapoint.init (morgan : String → Bool → List ℚ) (rdkit2d : String → List ℚ)
    (toFloat : String → ℚ) (line : List String) (args : Option InitArgs)
    (features0 : Option (List ℚ)) (use_compound_names : Bool) :
    Except String MoleculeDatapoint :=
  if features0.isSome && (argsView args).features_generator.isSome then
    Except.error "Currently cannot provide both loaded features and a features generator."
  else
    match splitCompoundName use_compound_names line with
    | Except.error e => Except.error e
    | Except.ok (compound_name, line1) =>
      match line1 with
      | [] => Except.error "IndexError: list index out of range"
      | smiles :: rest =>
        match genFeatures morgan rdkit2d smiles (argsView args).features_generator features0 with
        | Except.error e => Except.error e
        | Except.ok features1 =>
          if (argsView args).ss_mode then
            Except.ok (MoleculeDatapoint.mk compound_name smiles features1
              (argsView args).bert_pretraining (argsView args).bert_mask_type
              (Targets.dense [none]) 1 [] [] [])
          else
            match supervisedTargets toFloat (argsView args).predict_features features1 rest with
            | Except.error e => Except.error e
            | Except.ok t =>
              Except.ok (MoleculeDatapoint.mk compound_name smiles features1
                (argsView args).bert_pretraining (argsView args).bert_mask_type
                (if (argsView args).sparse then Targets.sparse (SparseNoneArray.ofTargets t)
                 else Targets.dense t)
                t.length [] [] [])

/-- MoleculeDatapoint.set_targets (lines 161-162): unconditional overwrite. -/
def MoleculeDatapoint.set_targets (d : MoleculeDatapoint) (targets : Targets) :
    MoleculeDatapoint :=
  { d with targets := targets }

/-- `self.nb_indices[atom]`; out-of-range access defaults to [] where Python
would raise, which the well-formedness hypotheses of the theorems exclude. -/
def nbGet (d : MoleculeDatapoint) (i : ℕ) : List ℕ :=
  d.nb_indices.getD i []

/-- MoleculeDatapoint.recreate_mask on the datapoint state (lines 106-159). -/
def MoleculeDatapoint.recreateMask (o : RandOracle) (d : MoleculeDatapoint) :
    Except String MoleculeDatapoint :=
  Except.map (fun m => { d with mask := m })
    (recreateMaskCore o d.bert_pretraining d.bert_mask_type (nbGet d) d.vocab_targets.length)

/-- MoleculeDatapoint.bert_init (lines 99-104): vocab is the external
vocabulary collaborator `args.vocab.smiles2indices`. -/
def MoleculeDatapoint.bert_init (vocab : String → List ℕ × List (List ℕ)) (o : RandOracle)
    (d : MoleculeDatapoint) : Except String MoleculeDatapoint :=
  if !d.bert_pretraining then
    Except.error "Should not do this unless using bert_pretraining."
  else
    let p := vocab d.smiles
    MoleculeDatapoint.recreateMask o { d with vocab_targets := p.1, nb_indices := p.2 }

/-! ## MoleculeDataset (data.py lines 172-291) -/

/-- Modelled from the spec: the process-shared random source of the `random`
module used by shuffle (the module itself is an external collaborator, not
part of this file's source): a state, a deterministic seeding operation and a
bounded draw updating the state. -/
structure RandomSource where
  state : ℕ
  deriving DecidableEq

/-- random.seed(seed): the state becomes a function of the seed alone. -/
def RandomSource.ofSeed (s : ℤ) : RandomSource :=
  RandomSource.mk s.natAbs

/-- One bounded draw: value in [0, bound) plus the successor state. -/
def RandomSource.next (r : RandomSource) (bound : ℕ) : ℕ × RandomSource :=
  (r.state % bound, RandomSource.mk ((r.state * 1103515245 + 12345) % 2147483648))

/-- The swap `x[i], x[j] = x[j], x[i]` of random.shuffle. -/
def listSwap {α : Type} (l : List α) (i j : ℕ) : List α :=
  match l[i]?, l[j]? with
  | some x, some y => (l.set i y).set j x
  | _, _ => l

/-- The Fisher-Yates loop of random.shuffle:
`for i in reversed(range(1, len(x))): j = randbelow(i+1); swap x[i], x[j]`. -/
def fyLoop {α : Type} : List α → RandomSource → ℕ → List α × RandomSource
  | l, r, 0 => (l, r)
  | l, r, i + 1 =>
    let p := r.next (i + 2)
    fyLoop (listSwap l (i + 1) p.1) p.2 i

/-- random.shuffle(self.data). -/
def shuffleData {α : Type} (r : RandomSource) (l : List α) : List α × RandomSource :=
  fyLoop l r (l.length - 1)

/-- MoleculeDataset state: the data list plus the derived flags computed by
__init__ from the first element (lines 173-177; the scaler is out of scope
of the claims). -/
structure MoleculeDataset where
  data : List MoleculeDatapoint
  bert_pretraining : Bool
  features_size : Option ℕ
  deriving DecidableEq

/-- MoleculeDataset.__init__ (lines 173-177). -/
def MoleculeDataset.init (data : List MoleculeDatapoint) : MoleculeDataset :=
  MoleculeDataset.mk data
    (match data with
     | [] => false
     | d :: _ => d.bert_pretraining)
    (match data with
     | [] => none
     | d :: _ =>
       match d.features with
       | none => none
       | some fs => some fs.length)

/-- MoleculeDataset.mask (lines 237-241): the flattened concatenation of the
per-datapoint masks, defined only in bert_pretraining mode. -/
def MoleculeDataset.mask (ds : MoleculeDataset) : Except String (List ℕ) :=
  if !ds.bert_pretraining then
    Except.error "Mask is undefined without bert_pretraining on."
  else
    Except.ok ((ds.data.map (fun d => d.mask)).flatten)

/-- The `for d in self.data: d.recreate_mask()` loop of shuffle, each
datapoint drawing from its own oracle. -/
def regenAll (os : ℕ → RandOracle) : ℕ → List MoleculeDatapoint →
    Except String (List MoleculeDatapoint)
  | _, [] => Except.ok []
  | i, d :: rest =>
    match MoleculeDatapoint.recreateMask (os i) d with
    | Except.error e => Except.error e
    | Except.ok d2 =>
      match regenAll os (i + 1) rest with
      | Except.error e => Except.error e
      | Except.ok rest2 => Except.ok (d2 :: rest2)

/-- MoleculeDataset.shuffle (lines 243-251): optionally seed the shared
random source, permute the data, and in bert_pretraining mode regenerate
every datapoint's mask. -/
def seedResolve (seed : Option ℤ) (r : RandomSource) : RandomSource :=
  match seed with
  | some s => RandomSource.ofSeed s
  | none => r

def MoleculeDataset.shuffle (ds : MoleculeDataset) (seed : Option ℤ) (r : RandomSource)
    (os : ℕ → RandOracle) : Except String (MoleculeDataset × RandomSource) :=
  if ds.bert_pretraining then
    match regenAll os 0 (shuffleData (seedResolve seed r) ds.data).1 with
    | Except.error e => Except.error e
    | Except.ok data2 =>
      Except.ok ({ ds with data := data2 }, (shuffleData (seedResolve seed r) ds.data).2)
  else
    Except.ok ({ ds with data := (shuffleData (seedResolve seed r) ds.data).1 },
      (shuffleData (seedResolve seed r) ds.data).2)

/-- MoleculeDataset.chunk (lines 253-260): shuffle, then cut the data into
num_chunks contiguous slices of length ceil(N / num_chunks) each (the exact
natural-number ceiling embeds math.ceil on the real quotient). -/
def MoleculeDataset.chunk (ds : MoleculeDataset) (num_chunks : ℕ) (seed : Option ℤ)
    (r : RandomSource) (os : ℕ → RandOracle) :
    Except String (List MoleculeDataset × RandomSource) :=
  match ds.shuffle seed r os with
  | Except.error e => Except.error e
  | Except.ok (ds2, r2) =>
    Except.ok ((List.range num_chunks).map
      (fun i => MoleculeDataset.init
        ((ds2.data.drop (i * ((ds2.data.length + num_chunks - 1) / num_chunks))).take
          ((ds2.data.length + num_chunks - 1) / num_chunks))), r2)

/-! ## Helper predicates and concrete inputs for the witnesses -/

/-- Whether the embedded computation raised. -/
def isErr {α : Type} : Except String α → Bool
  | Except.error _ => true
  | Except.ok _ => false

/-- The embedded computation returned a datapoint satisfying p. -/
def OkDatapoint (p : MoleculeDatapoint → Prop) : Except String MoleculeDatapoint → Prop
  | Except.ok d => p d
  | Except.error _ => False

/-- A concrete deterministic oracle for the witnesses. -/
def trivOracle : RandOracle :=
  RandOracle.mk (fun _ => 0) (fun _ => false) (fun _ => true) 0 (fun _ => 0) (fun _ => 0)

/-- The oracle of the C2 failing input: the correlation pass picks atom 2 and
the first (only) entry of its neighbor list. -/
def oC2 : RandOracle :=
  RandOracle.mk (fun _ => 0) (fun _ => false) (fun _ => true) 0 (fun _ => 2) (fun _ => 0)

/-- The adjacency of the C2 failing input: atom 2 has the single neighbor 1;
atoms 0 and 1 have none. -/
def nbC2 : ℕ → List ℕ :=
  fun i => if i = 2 then [1] else []

/-- A concrete bert_pretraining datapoint with one vocab target. -/
def dBert : MoleculeDatapoint :=
  MoleculeDatapoint.mk none "C" none true "cluster" (Targets.dense [none]) 1 [7] [[]] []

/-- A concrete datapoint outside bert_pretraining mode. -/
def dPlain : MoleculeDatapoint :=
  MoleculeDatapoint.mk none "C" none false "random" (Targets.dense [none]) 1 [] [] []

/-- The datapoint produced by __init__ on the supervised record ["C", "0.5"]
(with toFloat embedding float() as the constant 1). -/
def dSup : MoleculeDatapoint :=
  MoleculeDatapoint.mk none "C" none false "random" (Targets.dense [some 1]) 1 [] [] []

/-! ## Theorems: SparseNoneArray (claims C3, C4) -/

lemma dictGet_sparseEntries_lt (l : List (Option ℚ)) :
    ∀ (k i : ℤ), i < k → dictGet i (sparseEntries k l) = none := by
  induction l with
  | nil => intro k i _; rfl
  | cons v rest ih =>
    intro k i hik
    cases v with
    | none =>
      show dictGet i (sparseEntries (k + 1) rest) = none
      exact ih (k + 1) i (by omega)
    | some x =>
      show (if i = k then some x else dictGet i (sparseEntries (k + 1) rest)) = none
      rw [if_neg (by omega)]
      exact ih (k + 1) i (by omega)

lemma dictGet_sparseEntries (l : List (Option ℚ)) :
    ∀ (k : ℤ) (i : ℕ) (h : i < l.length),
      dictGet (k + i) (sparseEntries k l) = l.get ⟨i, h⟩ := by
  induction l with
  | nil => intro k i h; simp at h
  | cons v rest ih =>
    intro k i h
    cases v with
    | none =>
      show dictGet (k + i) (sparseEntries (k + 1) rest) = _
      cases i with
      | zero =>
        have harg : k + ((0 : ℕ) : ℤ) = k := by push_cast; ring
        rw [harg, dictGet_sparseEntries_lt rest (k + 1) k (by omega)]
        rfl
      | succ j =>
        have hj : j < rest.length := by simpa using h
        have harg : k + ((j + 1 : ℕ) : ℤ) = (k + 1) + (j : ℤ) := by push_cast; ring
        rw [harg, ih (k + 1) j hj]
        rfl
    | some x =>
      show (if k + (i : ℤ) = k then some x else dictGet (k + i) (sparseEntries (k + 1) rest)) = _
      cases i with
      | zero => rw [if_pos (by push_cast; ring)]; rfl
      | succ j =>
        rw [if_neg (by push_cast; omega)]
        have hj : j < rest.length := by simpa using h
        have harg : k + ((j + 1 : ℕ) : ℤ) = (k + 1) + (j : ℤ) := by push_cast; ring
        rw [harg, ih (k + 1) j hj]
        rfl

/-- C4: for every list of optional values and every in-range index i,
a SparseNoneArray built from the list returns exactly values[i] from get(i):
the stored value when it is set, and None when it is unset. -/
theorem sparse_get_valid (values : List (Option ℚ)) (i : ℕ) (h : i < values.length) :
    (SparseNoneArray.ofTargets values).getitem i = Except.ok (values.get ⟨i, h⟩) := by
  unfold SparseNoneArray.getitem SparseNoneArray.ofTargets
  rw [if_neg (by simp; omega)]
  have := dictGet_sparseEntries values 0 i h
  rw [show ((i : ℕ) : ℤ) = 0 + (i : ℤ) by omega]
  simp only [this]

/-- Witness for C4: both a set and an unset position of a concrete vector. -/
theorem sparse_get_valid_witness :
    (SparseNoneArray.ofTargets [some (1 : ℚ), none]).getitem 0 = Except.ok (some 1)
    ∧ (SparseNoneArray.ofTargets [some (1 : ℚ), none]).getitem 1 = Except.ok none :=
  ⟨sparse_get_valid [some 1, none] 0 (by decide),
   sparse_get_valid [some 1, none] 1 (by decide)⟩

/-- C3 counterexample: the claim says get(i) fails for every i < 0, but the
code only checks i >= length; a lookup at -1 silently hits the defaultdict
default and returns None instead of raising. -/
theorem sparse_get_negative_counterexample :
    (SparseNoneArray.ofTargets [some (1 : ℚ), none]).getitem (-1) = Except.ok none := by
  rfl

/-- C3 amended: get(i) fails with the IndexError exactly when i >= length;
for i < 0 it does not fail, it returns None (missing key, defaultdict default). -/
theorem sparse_get_out_of_bounds (values : List (Option ℚ)) (i : ℤ) :
    ((SparseNoneArray.ofTargets values).getitem i = Except.error "IndexError"
      ↔ (values.length : ℤ) ≤ i)
    ∧ (i < 0 → (SparseNoneArray.ofTargets values).getitem i = Except.ok none) := by
  constructor
  · constructor
    · intro h
      by_contra hlt
      unfold SparseNoneArray.getitem SparseNoneArray.ofTargets at h
      rw [if_neg (by simpa using hlt)] at h
      exact absurd h (by simp)
    · intro h
      unfold SparseNoneArray.getitem SparseNoneArray.ofTargets
      rw [if_pos (by simpa using h)]
  · intro hneg
    unfold SparseNoneArray.getitem SparseNoneArray.ofTargets
    rw [if_neg (by simp; omega)]
    rw [dictGet_sparseEntries_lt values 0 i (by omega)]

/-- Witness for C3's amended statement at concrete inputs. -/
theorem sparse_get_out_of_bounds_witness :
    (SparseNoneArray.ofTargets [some (1 : ℚ), none]).getitem (-2) = Except.ok none :=
  (sparse_get_out_of_bounds [some 1, none] (-2)).2 (by decide)

/-! ## Theorems: the masking code (claims C1, C2, C10) -/

lemma setZeros_length (idxs : List ℕ) :
    ∀ (mask : List ℕ), (setZeros mask idxs).length = mask.length := by
  induction idxs with
  | nil => intro mask; rfl
  | cons j rest ih =>
    intro mask
    show (setZeros (mask.set j 0) rest).length = _
    rw [ih (mask.set j 0), List.length_set]

lemma setZeros_mem (idxs : List ℕ) :
    ∀ (mask : List ℕ) (x : ℕ), x ∈ setZeros mask idxs → x ∈ mask ∨ x = 0 := by
  induction idxs with
  | nil => intro mask x hx; exact Or.inl hx
  | cons j rest ih =>
    intro mask x hx
    rcases ih (mask.set j 0) x hx with h | h
    · rcases List.mem_or_eq_of_mem_set h with h2 | h2
      · exact Or.inl h2
      · exact Or.inr h2
    · exact Or.inr h

lemma setZeros_getD_not_mem (idxs : List ℕ) :
    ∀ (mask : List ℕ) (i : ℕ), i ∉ idxs →
      (setZeros mask idxs).getD i 0 = mask.getD i 0 := by
  induction idxs with
  | nil => intro mask i _; rfl
  | cons j rest ih =>
    intro mask i hi
    have hij : i ≠ j := fun h => hi (h ▸ List.mem_cons_self j rest)
    have hrest : i ∉ rest := fun h => hi (List.mem_cons_of_mem j h)
    show (setZeros (mask.set j 0) rest).getD i 0 = _
    rw [ih _ i hrest, List.getD_eq_getElem?_getD, List.getD_eq_getElem?_getD,
      List.getElem?_set_ne (Ne.symm hij)]

lemma setZeros_getD_mem (idxs : List ℕ) :
    ∀ (mask : List ℕ) (i : ℕ), i ∈ idxs → i < mask.length →
      (setZeros mask idxs).getD i 0 = 0 := by
  induction idxs with
  | nil => intro mask i hi _; simp at hi
  | cons j rest ih =>
    intro mask i hi hlen
    show (setZeros (mask.set j 0) rest).getD i 0 = 0
    by_cases hr : i ∈ rest
    · exact ih _ i hr (by rw [List.length_set]; exact hlen)
    · have hij : i = j := by
        rcases List.mem_cons.mp hi with h | h
        · exact h
        · exact absurd h hr
      subst hij
      rw [setZeros_getD_not_mem rest _ i hr, List.getD_eq_getElem?_getD,
        List.getElem?_set_self hlen]
      rfl

lemma zero_mem_of_sum_ne (mask : List ℕ) (hb : ∀ x ∈ mask, x ≤ 1)
    (h : mask.sum ≠ mask.length) : 0 ∈ mask := by
  induction mask with
  | nil => simp at h
  | cons x t ih =>
    have hx : x ≤ 1 := hb x (List.mem_cons_self x t)
    rcases Nat.le_one_iff_eq_zero_or_eq_one.mp hx with rfl | rfl
    · exact List.mem_cons_self 0 t
    · have h2 : t.sum ≠ t.length := by
        intro he
        apply h
        simp only [List.sum_cons, List.length_cons, he]
        omega
      exact List.mem_cons_of_mem 1
        (ih (fun y hy => hb y (List.mem_cons_of_mem 1 hy)) h2)

lemma getD_le_one (m : List ℕ) (hb : ∀ x ∈ m, x ≤ 1) (i : ℕ) : m.getD i 0 ≤ 1 := by
  rw [List.getD_eq_getElem?_getD]
  rcases Nat.lt_or_ge i m.length with hi | hi
  · rw [List.getElem?_eq_getElem hi]
    exact hb _ (List.getElem_mem hi)
  · rw [List.getElem?_eq_none hi]
    simp

lemma set_bounded (m : List ℕ) (hb : ∀ x ∈ m, x ≤ 1) (i v : ℕ) (hv : v ≤ 1) :
    ∀ x ∈ m.set i v, x ≤ 1 := by
  intro x hx
  rcases List.mem_or_eq_of_mem_set hx with h | h
  · exact hb x h
  · omega

lemma clusterStep_fst (pick : Finset ℕ → ℕ) (c : Bool) (nb : ℕ → List ℕ)
    (mask : List ℕ) (atoms : Finset ℕ) :
    (clusterStep pick c nb mask atoms).1 =
        setZeros mask (clusterPop pick atoms :: nb (clusterPop pick atoms))
    ∨ (clusterStep pick c nb mask atoms).1 = mask := by
  unfold clusterStep
  cases c
  · right; rfl
  · left; rfl

lemma clusterLoop_inv (pick : Finset ℕ → ℕ) (coin : ℕ → Bool) (nb : ℕ → List ℕ) :
    ∀ (n : ℕ) (atoms : Finset ℕ), atoms.card = n → ∀ (mask : List ℕ) (step : ℕ),
      (clusterLoop pick coin nb mask atoms step).length = mask.length ∧
      ((∀ x ∈ mask, x ≤ 1) → ∀ x ∈ clusterLoop pick coin nb mask atoms step, x ≤ 1) := by
  intro n
  induction n using Nat.strong_induction_on with
  | _ n IH =>
    intro atoms hcard mask step
    by_cases h : atoms.Nonempty
    · rw [clusterLoop, dif_pos h]
      have hlt : (clusterStep pick (coin step) nb mask atoms).2.card < n := by
        rw [← hcard]
        exact clusterStep_card_lt pick (coin step) nb mask atoms h
      have IH2 := IH _ hlt (clusterStep pick (coin step) nb mask atoms).2 rfl
        (clusterStep pick (coin step) nb mask atoms).1 (step + 1)
      constructor
      · rw [IH2.1]
        rcases clusterStep_fst pick (coin step) nb mask atoms with he | he <;> rw [he]
        exact setZeros_length _ mask
      · intro hb
        apply IH2.2
        intro x hx
        rcases clusterStep_fst pick (coin step) nb mask atoms with he | he
        · rw [he] at hx
          rcases setZeros_mem _ _ x hx with h2 | h2
          · exact hb x h2
          · omega
        · rw [he] at hx
          exact hb x hx
    · rw [clusterLoop, dif_neg h]
      exact ⟨rfl, fun hb => hb⟩

lemma corrLoop_inv (o : RandOracle) (nb : ℕ → List ℕ) :
    ∀ (iters : ℕ) (mask : List ℕ) (step : ℕ),
      (corrLoop o nb mask iters step).length = mask.length ∧
      ((∀ x ∈ mask, x ≤ 1) → ∀ x ∈ corrLoop o nb mask iters step, x ≤ 1) := by
  intro iters
  induction iters with
  | zero => intro mask step; exact ⟨rfl, fun hb => hb⟩
  | succ it ih =>
    intro mask step
    rw [corrLoop]
    by_cases hdeg : 0 < (nb (o.idxChange step % mask.length)).length
    · rw [if_pos hdeg]
      set i := o.idxChange step % mask.length
      set v := mask.getD (o.nbrChoice step % (nb i).length) 0 with hv
      have IH2 := ih (mask.set i v) (step + 1)
      constructor
      · rw [IH2.1, List.length_set]
      · intro hb
        exact IH2.2 (set_bounded mask hb i v (getD_le_one mask hb _))
    · rw [if_neg hdeg]
      exact ih mask (step + 1)

lemma zero_mem_of_getD (m : List ℕ) (i : ℕ) (hi : i < m.length) (h : m.getD i 0 = 0) :
    0 ∈ m := by
  rw [List.getD_eq_getElem?_getD, List.getElem?_eq_getElem hi] at h
  simp only [Option.getD_some] at h
  rw [← h]
  exact List.getElem_mem hi

lemma zero_mem_set (m : List ℕ) (j : ℕ) (hj : j < m.length) : 0 ∈ m.set j 0 := by
  apply zero_mem_of_getD (m.set j 0) j (by rw [List.length_set]; exact hj)
  rw [List.getD_eq_getElem?_getD, List.getElem?_set_self hj]
  rfl

lemma bernMask_le_one (o : RandOracle) (n : ℕ) :
    ∀ x ∈ (List.range n).map (fun i => if o.bern i then 1 else 0), x ≤ 1 := by
  intro x hx
  rcases List.mem_map.mp hx with ⟨i, _, rfl⟩
  by_cases hb : o.bern i <;> simp [hb]

lemma replicate_le_one (n : ℕ) : ∀ x ∈ List.replicate n (1 : ℕ), x ≤ 1 := by
  intro x hx
  rw [List.eq_of_mem_replicate hx]

lemma recreateMaskCore_ok (o : RandOracle) (policy : String) (nb : ℕ → List ℕ) (n : ℕ)
    (hn : 1 ≤ n)
    (hpol : policy = "cluster" ∨ policy = "correlation" ∨ policy = "random") :
    ∃ m, recreateMaskCore o true policy nb n = Except.ok m ∧ m.length = n ∧ 0 ∈ m := by
  rcases hpol with rfl | rfl | rfl
  · rw [recreateMaskCore, if_neg (by simp), if_pos rfl]
    have hinv := clusterLoop_inv o.pick o.coin nb (Finset.range n).card (Finset.range n) rfl
      (List.replicate n 1) 0
    set M := clusterLoop o.pick o.coin nb (List.replicate n 1) (Finset.range n) 0 with hM
    have hlen : M.length = n := by rw [hinv.1, List.length_replicate]
    have hbnd : ∀ x ∈ M, x ≤ 1 := hinv.2 (replicate_le_one n)
    by_cases hs : M.sum = M.length
    · rw [if_pos hs]
      have hatom : o.randAtom % M.length < M.length :=
        Nat.mod_lt _ (by rw [hlen]; omega)
      refine ⟨_, rfl, ?_, ?_⟩
      · rw [setZeros_length, hlen]
      · apply zero_mem_of_getD _ (o.randAtom % M.length)
          (by rw [setZeros_length]; exact hatom)
        exact setZeros_getD_mem _ M _ (List.mem_cons_self _ _) hatom
    · rw [if_neg hs]
      exact ⟨M, rfl, hlen, zero_mem_of_sum_ne M hbnd hs⟩
  · rw [recreateMaskCore, if_neg (by simp), if_neg (by decide), if_pos rfl]
    have h0len : ((List.range n).map (fun i => if o.bern i then 1 else 0)).length = n := by
      rw [List.length_map, List.length_range]
    have hinv := corrLoop_inv o nb
      ((List.range n).map (fun i => if o.bern i then 1 else 0)).length
      ((List.range n).map (fun i => if o.bern i then 1 else 0)) 0
    set M := corrLoop o nb ((List.range n).map (fun i => if o.bern i then 1 else 0))
      ((List.range n).map (fun i => if o.bern i then 1 else 0)).length 0 with hM
    have hlen : M.length = n := by rw [hinv.1, h0len]
    have hbnd : ∀ x ∈ M, x ≤ 1 := hinv.2 (bernMask_le_one o n)
    by_cases hs : M.sum = M.length
    · rw [if_pos hs]
      have hatom : o.randAtom % M.length < M.length :=
        Nat.mod_lt _ (by rw [hlen]; omega)
      exact ⟨_, rfl, by rw [List.length_set, hlen], zero_mem_set M _ hatom⟩
    · rw [if_neg hs]
      exact ⟨M, rfl, hlen, zero_mem_of_sum_ne M hbnd hs⟩
  · rw [recreateMaskCore, if_neg (by simp), if_neg (by decide), if_neg (by decide), if_pos rfl]
    set M := (List.range n).map (fun i => if o.bern i then 1 else 0) with hM
    have hlen : M.length = n := by rw [hM, List.length_map, List.length_range]
    have hbnd : ∀ x ∈ M, x ≤ 1 := bernMask_le_one o n
    by_cases hs : M.sum = M.length
    · rw [if_pos hs]
      have hatom : o.randAtom % M.length < M.length :=
        Nat.mod_lt _ (by rw [hlen]; omega)
      exact ⟨_, rfl, by rw [List.length_set, hlen], zero_mem_set M _ hatom⟩
    · rw [if_neg hs]
      exact ⟨M, rfl, hlen, zero_mem_of_sum_ne M hbnd hs⟩

/-- C1: for a datapoint in self-supervised (bert_pretraining) mode with at
least one vocab target, with a well-formed neighbor structure, recreate_mask
succeeds under each of the three policies and for all random draws, and the
produced mask has exactly num_targets entries of which at least one is 0
(the all-unmasked mask never occurs). -/
theorem recreate_mask_invariant (o : RandOracle) (d : MoleculeDatapoint)
    (hbert : d.bert_pretraining = true)
    (hpol : d.bert_mask_type = "cluster" ∨ d.bert_mask_type = "correlation"
      ∨ d.bert_mask_type = "random")
    (hn : 1 ≤ d.vocab_targets.length)
    (hnb : ∀ a, ∀ x ∈ nbGet d a, x < d.vocab_targets.length)
    (hdeg : ∀ a, (nbGet d a).length ≤ d.vocab_targets.length) :
    OkDatapoint (fun d2 => d2.mask.length = d.vocab_targets.length ∧ 0 ∈ d2.mask)
      (d.recreateMask o) := by
  obtain ⟨m, hm, hlen, hmem⟩ :=
    recreateMaskCore_ok o d.bert_mask_type (nbGet d) d.vocab_targets.length hn hpol
  unfold MoleculeDatapoint.recreateMask
  rw [hbert, hm]
  exact ⟨hlen, hmem⟩

/-- Witness for C1 at a concrete bert_pretraining datapoint, cluster policy. -/
theorem recreate_mask_invariant_witness :
    OkDatapoint (fun d2 => d2.mask.length = dBert.vocab_targets.length ∧ 0 ∈ d2.mask)
      (dBert.recreateMask trivOracle) :=
  recreate_mask_invariant trivOracle dBert rfl (Or.inl rfl) (by decide)
    (by intro a x hx; cases a <;> simp [nbGet, dBert] at hx)
    (by intro a; cases a <;> simp [nbGet, dBert])

/-- C2 (code bug): at the failing input the source's correlation pass copies
mask[nbr_index] - the position drawn inside the neighbor list used directly
as a mask index - while the claim (and the code's own comment about
increasing correlation between neighbors) says the chosen neighbor atom's
mask value is copied. With mask = [0, 1, 1] and atom 2 having the single
neighbor 1, the code writes mask[0] = 0 onto position 2, whereas the
spec's pass copies the neighbor's value mask[1] = 1, leaving the mask
unchanged. -/
theorem correlation_copy_divergence :
    corrLoop oC2 nbC2 [0, 1, 1] 1 0 = [0, 1, 0]
    ∧ corrLoopFromSpec oC2 nbC2 [0, 1, 1] 1 0 = [0, 1, 1] := by
  constructor <;> rfl

/-- C10: one iteration of the cluster-policy loop strictly decreases the
cardinality of the set of unprocessed atoms, for every coin outcome, every
pop choice and arbitrary neighbor-list contents, so the loop reaches the
empty set and terminates. -/
theorem cluster_loop_strictly_decreases (pick : Finset ℕ → ℕ) (c : Bool)
    (nb : ℕ → List ℕ) (mask : List ℕ) (atoms : Finset ℕ) (h : atoms.Nonempty) :
    (clusterStep pick c nb mask atoms).2.card < atoms.card :=
  clusterStep_card_lt pick c nb mask atoms h

/-- Witness for C10 on a concrete nonempty atom set. -/
theorem cluster_loop_strictly_decreases_witness :
    (clusterStep (fun _ => 0) true (fun _ => []) [] {0}).2.card < ({0} : Finset ℕ).card :=
  cluster_loop_strictly_decreases (fun _ => 0) true (fun _ => []) [] {0}
    ⟨0, Finset.mem_singleton_self 0⟩


/-! ## Theorems: MoleculeDatapoint construction (claims C5, C7, C8) -/

/-- C5 counterexample: on the supervised record ["C", "0.5"] construction
yields num_tasks = 1, but set_targets with a two-element target list leaves
num_tasks = 1 while len(targets) becomes 2, so the claimed invariant
num_tasks == len(targets) is not preserved by set_targets. -/
theorem set_targets_breaks_invariant :
    Except.map
      (fun d => ((d.set_targets (Targets.dense [some 1, some 2])).num_tasks,
        (d.set_targets (Targets.dense [some 1, some 2])).targets.tlen))
      (MoleculeDatapoint.init (fun _ _ => []) (fun _ => []) (fun _ => 1)
        ["C", "0.5"] (some (InitArgs.mk none false false "classification" "random"))
        none false)
    = Except.ok (1, 2) := by
  rfl

/-- C5 amended: num_tasks == len(targets) holds after construction, with
num_tasks == 1 in unsupervised/bert_pretraining mode; set_targets never
modifies num_tasks (so it preserves the num_tasks == 1 invariant of the
self-supervised modes, but it can break num_tasks == len(targets) when
handed a list of a different length). -/
theorem num_tasks_invariant (morgan : String → Bool → List ℚ) (rdkit2d : String → List ℚ)
    (toFloat : String → ℚ) (line : List String) (args : Option InitArgs)
    (features0 : Option (List ℚ)) (ucn : Bool) (d : MoleculeDatapoint)
    (h : MoleculeDatapoint.init morgan rdkit2d toFloat line args features0 ucn = Except.ok d) :
    d.num_tasks = d.targets.tlen
    ∧ ((argsView args).ss_mode = true → d.num_tasks = 1)
    ∧ ∀ t, (d.set_targets t).num_tasks = d.num_tasks := by
  have key : d.num_tasks = d.targets.tlen
      ∧ ((argsView args).ss_mode = true → d.num_tasks = 1) := by
    unfold MoleculeDatapoint.init at h
    repeat' split at h
    all_goals try exact Except.noConfusion h
    all_goals (
      simp only [Except.ok.injEq] at h
      subst h
      refine ⟨rfl, fun hmode => ?_⟩
      first
        | rfl
        | exact absurd hmode (by assumption))
  exact ⟨key.1, key.2, fun t => rfl⟩

/-- Witness for C5's amended statement: construction on the supervised record
["C", "0.5"] satisfies the invariant. -/
theorem num_tasks_invariant_witness :
    dSup.num_tasks = dSup.targets.tlen :=
  (num_tasks_invariant (fun _ _ => []) (fun _ => []) (fun _ => 1) ["C", "0.5"]
    (some (InitArgs.mk none false false "classification" "random")) none false dSup rfl).1

/-- C7: each self-supervised-only operation - Datapoint.bert_init,
Datapoint.recreate_mask and Dataset.mask - raises (the error propagates to
the caller) when bert_pretraining mode is not active. -/
theorem ss_only_ops_fail (d : MoleculeDatapoint) (ds : MoleculeDataset)
    (vocab : String → List ℕ × List (List ℕ)) (o : RandOracle)
    (hd : d.bert_pretraining = false) (hds : ds.bert_pretraining = false) :
    isErr (d.bert_init vocab o) = true
    ∧ isErr (d.recreateMask o) = true
    ∧ isErr ds.mask = true := by
  refine ⟨?_, ?_, ?_⟩
  · unfold MoleculeDatapoint.bert_init
    rw [hd]
    rfl
  · unfold MoleculeDatapoint.recreateMask recreateMaskCore
    rw [hd]
    rfl
  · unfold MoleculeDataset.mask
    rw [hds]
    rfl

/-- Witness for C7 on a concrete non-bert datapoint and dataset. -/
theorem ss_only_ops_fail_witness :
    isErr (dPlain.bert_init (fun _ => ([], [])) trivOracle) = true
    ∧ isErr (dPlain.recreateMask trivOracle) = true
    ∧ isErr (MoleculeDataset.init []).mask = true :=
  ss_only_ops_fail dPlain (MoleculeDataset.init []) (fun _ => ([], [])) trivOracle rfl rfl

/-- C8: a feature-generator name outside the registry makes construction fail
with an error whose message contains the offending name (the message is
exactly the registry error with the name interpolated), and recreate_mask
with a policy other than cluster/correlation/random fails likewise with the
policy name in the message. -/
theorem unsupported_name_errors (morgan : String → Bool → List ℚ)
    (rdkit2d : String → List ℚ) (toFloat : String → ℚ) (fg policy : String)
    (o : RandOracle) (nb : ℕ → List ℕ) (n : ℕ)
    (hfg1 : fg ≠ "morgan") (hfg2 : fg ≠ "morgan_count") (hfg3 : fg ≠ "rdkit_2d")
    (hp1 : policy ≠ "cluster") (hp2 : policy ≠ "correlation") (hp3 : policy ≠ "random") :
    MoleculeDatapoint.init morgan rdkit2d toFloat ["C"]
        (some (InitArgs.mk (some [fg]) false false "classification" "random")) none false
      = Except.error ("features_generator type \"" ++ fg ++ "\" not supported.")
    ∧ recreateMaskCore o true policy nb n
      = Except.error ("bert_mask_type \"" ++ policy ++ "\" not supported.") := by
  constructor
  · unfold MoleculeDatapoint.init splitCompoundName genFeatures genLoop resolveGenerator argsView
    simp only [if_neg hfg1, if_neg hfg2, if_neg hfg3]
    rfl
  · unfold recreateMaskCore
    rw [if_neg (by simp), if_neg hp1, if_neg hp2, if_neg hp3]

/-- Witness for C8 with the unregistered name "bogus". -/
theorem unsupported_name_errors_witness :
    MoleculeDatapoint.init (fun _ _ => []) (fun _ => []) (fun _ => 1) ["C"]
        (some (InitArgs.mk (some ["bogus"]) false false "classification" "random")) none false
      = Except.error ("features_generator type \"" ++ "bogus" ++ "\" not supported.")
    ∧ recreateMaskCore trivOracle true "bogus" (fun _ => []) 3
      = Except.error ("bert_mask_type \"" ++ "bogus" ++ "\" not supported.") :=
  unsupported_name_errors (fun _ _ => []) (fun _ => []) (fun _ => 1) "bogus" "bogus"
    trivOracle (fun _ => []) 3 (by decide) (by decide) (by decide)
    (by decide) (by decide) (by decide)

/-! ## Theorems: MoleculeDataset shuffle and chunk (claims C6, C9) -/

lemma listSwap_length {α : Type} (l : List α) (i j : ℕ) :
    (listSwap l i j).length = l.length := by
  unfold listSwap
  rcases h1 : l[i]? with _ | x <;> rcases h2 : l[j]? with _ | y <;>
    simp [h1, h2, List.length_set]

lemma fyLoop_length {α : Type} : ∀ (i : ℕ) (l : List α) (r : RandomSource),
    (fyLoop l r i).1.length = l.length := by
  intro i
  induction i with
  | zero => intro l r; rfl
  | succ j ih =>
    intro l r
    show (fyLoop (listSwap l (j + 1) (r.next (j + 2)).1) (r.next (j + 2)).2 j).1.length = _
    rw [ih, listSwap_length]

lemma shuffleData_length {α : Type} (r : RandomSource) (l : List α) :
    (shuffleData r l).1.length = l.length :=
  fyLoop_length _ l r

lemma regenAll_ok_length (os : ℕ → RandOracle) :
    ∀ (l : List MoleculeDatapoint) (i : ℕ) (l2 : List MoleculeDatapoint),
      regenAll os i l = Except.ok l2 → l2.length = l.length := by
  intro l
  induction l with
  | nil =>
    intro i l2 h
    simp only [regenAll, Except.ok.injEq] at h
    subst h
    rfl
  | cons dd rest ih =>
    intro i l2 h
    unfold regenAll at h
    rcases hd : MoleculeDatapoint.recreateMask (os i) dd with e | d2
    · rw [hd] at h
      exact Except.noConfusion h
    · rw [hd] at h
      rcases hr : regenAll os (i + 1) rest with e | rest2
      · rw [hr] at h
        exact Except.noConfusion h
      · rw [hr] at h
        simp only [Except.ok.injEq] at h
        subst h
        simp only [List.length_cons]
        rw [ih _ _ hr]

lemma shuffle_ok_length (ds : MoleculeDataset) (seed : Option ℤ) (r : RandomSource)
    (os : ℕ → RandOracle) (ds2 : MoleculeDataset) (r2 : RandomSource)
    (h : ds.shuffle seed r os = Except.ok (ds2, r2)) :
    ds2.data.length = ds.data.length := by
  unfold MoleculeDataset.shuffle at h
  by_cases hb : ds.bert_pretraining = true
  · rw [if_pos hb] at h
    rcases hreg : regenAll os 0 (shuffleData (seedResolve seed r) ds.data).1 with e | data2
    · rw [hreg] at h
      exact Except.noConfusion h
    · rw [hreg] at h
      simp only [Except.ok.injEq, Prod.mk.injEq] at h
      obtain ⟨h1, h2⟩ := h
      subst h1
      show data2.length = _
      rw [regenAll_ok_length os _ _ _ hreg, shuffleData_length]
  · rw [if_neg hb] at h
    simp only [Except.ok.injEq, Prod.mk.injEq] at h
    obtain ⟨h1, h2⟩ := h
    subst h1
    show (shuffleData (seedResolve seed r) ds.data).1.length = _
    rw [shuffleData_length]

lemma le_ceil_mul (N n : ℕ) (hn : 1 ≤ n) : N ≤ ((N + n - 1) / n) * n := by
  have h2 : (N + n - 1) / n < (N + n - 1) / n + 1 := Nat.lt_succ_self _
  have h1 : N + n - 1 < ((N + n - 1) / n + 1) * n :=
    (Nat.div_lt_iff_lt_mul (by omega)).mp h2
  have h3 : ((N + n - 1) / n + 1) * n = ((N + n - 1) / n) * n + n := by ring
  rw [h3] at h1
  obtain ⟨m, hm⟩ : ∃ m, ((N + n - 1) / n) * n = m := ⟨_, rfl⟩
  rw [hm] at h1 ⊢
  omega

lemma chunks_len_sum {α : Type} (cl : ℕ) :
    ∀ (n : ℕ) (l : List α), l.length ≤ cl * n →
      ((List.range n).map (fun i => ((l.drop (i * cl)).take cl).length)).sum = l.length := by
  intro n
  induction n with
  | zero =>
    intro l h
    simp only [Nat.mul_zero, Nat.le_zero] at h
    simp [List.range_zero, h]
  | succ m ih =>
    intro l h
    rw [List.range_succ_eq_map, List.map_cons, List.sum_cons, List.map_map]
    have hfun : ((fun i => ((l.drop (i * cl)).take cl).length) ∘ Nat.succ)
        = fun i => (((l.drop cl).drop (i * cl)).take cl).length := by
      funext i
      simp only [Function.comp_apply]
      rw [List.drop_drop]
      have harg : Nat.succ i * cl = cl + i * cl := by
        rw [Nat.succ_mul, Nat.add_comm]
      rw [harg]
    rw [hfun]
    rw [ih (l.drop cl) (by rw [List.length_drop]; rw [Nat.mul_succ] at h; omega)]
    simp only [Nat.zero_mul, List.drop_zero, List.length_take, List.length_drop]
    omega

lemma MoleculeDataset.init_data (l : List MoleculeDatapoint) :
    (MoleculeDataset.init l).data = l := rfl

theorem chunk_props (ds : MoleculeDataset) (n : ℕ) (seed : Option ℤ) (r : RandomSource)
    (os : ℕ → RandOracle) (cs : List MoleculeDataset) (r2 : RandomSource)
    (hn : 1 ≤ n) (h : ds.chunk n seed r os = Except.ok (cs, r2)) :
    cs.length = n
    ∧ (cs.map (fun c => c.data.length)).sum = ds.data.length
    ∧ ∀ c ∈ cs, c.data.length ≤ (ds.data.length + n - 1) / n := by
  unfold MoleculeDataset.chunk at h
  rcases hsh : ds.shuffle seed r os with e | p
  · rw [hsh] at h
    exact Except.noConfusion h
  · obtain ⟨ds2, r2x⟩ := p
    rw [hsh] at h
    have hlen : ds2.data.length = ds.data.length :=
      shuffle_ok_length ds seed r os ds2 r2x hsh
    simp only [Except.ok.injEq, Prod.mk.injEq] at h
    obtain ⟨h1, h2⟩ := h
    subst h1
    rw [← hlen]
    refine ⟨by simp, ?_, ?_⟩
    · rw [List.map_map]
      have hcomp : ((fun c => c.data.length) ∘ (fun i => MoleculeDataset.init
            ((ds2.data.drop (i * ((ds2.data.length + n - 1) / n))).take
              ((ds2.data.length + n - 1) / n))))
          = fun i => ((ds2.data.drop (i * ((ds2.data.length + n - 1) / n))).take
              ((ds2.data.length + n - 1) / n)).length := by
        funext i
        rfl
      rw [hcomp]
      exact chunks_len_sum _ n ds2.data (le_ceil_mul _ n hn)
    · intro c hc
      rcases List.mem_map.mp hc with ⟨i, _, rfl⟩
      show ((ds2.data.drop _).take _).length ≤ _
      rw [List.length_take]
      exact min_le_left _ _

theorem chunk_props_witness :
    [MoleculeDataset.init []].length = 1
    ∧ ([MoleculeDataset.init []].map (fun c => c.data.length)).sum
        = (MoleculeDataset.init []).data.length :=
  ⟨(chunk_props (MoleculeDataset.init []) 1 none (RandomSource.mk 0) (fun _ => trivOracle)
      [MoleculeDataset.init []] (RandomSource.mk 0) (by decide) rfl).1,
   (chunk_props (MoleculeDataset.init []) 1 none (RandomSource.mk 0) (fun _ => trivOracle)
      [MoleculeDataset.init []] (RandomSource.mk 0) (by decide) rfl).2.1⟩

theorem shuffle_seed_deterministic (ds1 ds2 : MoleculeDataset) (s : ℤ)
    (r1 r2 : RandomSource) (os : ℕ → RandOracle)
    (hdata : ds1.data = ds2.data)
    (hflag : ds1.bert_pretraining = ds2.bert_pretraining) :
    Except.map (fun p => p.1.data) (ds1.shuffle (some s) r1 os)
    = Except.map (fun p => p.1.data) (ds2.shuffle (some s) r2 os) := by
  unfold MoleculeDataset.shuffle
  rw [hdata, hflag]
  have hs1 : seedResolve (some s) r1 = RandomSource.ofSeed s := rfl
  have hs2 : seedResolve (some s) r2 = RandomSource.ofSeed s := rfl
  rw [hs1, hs2]
  by_cases hb : ds2.bert_pretraining = true
  · rw [if_pos hb, if_pos hb]
    rcases hreg : regenAll os 0 (shuffleData (RandomSource.ofSeed s) ds2.data).1 with e | data2 <;>
      rfl
  · rw [if_neg hb, if_neg hb]
    rfl

theorem shuffle_seed_deterministic_witness :
    Except.map (fun p => p.1.data)
      ((MoleculeDataset.mk [dPlain] false none).shuffle (some 42) (RandomSource.mk 1)
        (fun _ => trivOracle))
    = Except.map (fun p => p.1.data)
      ((MoleculeDataset.mk [dPlain] false (some 5)).shuffle (some 42) (RandomSource.mk 99)
        (fun _ => trivOracle)) :=
  shuffle_seed_deterministic (MoleculeDataset.mk [dPlain] false none)
    (MoleculeDataset.mk [dPlain] false (some 5)) 42 (RandomSource.mk 1)
    (RandomSource.mk 99) (fun _ => trivOracle) rfl rfl
